import Mathlib

/-!
# go-coap server core (`server.go`): override extraction, dispatch loop, transmit

A shallow embedding of `getAddrJP`, `Serve`, `handlePacket` and `Transmit`
from `src/server.go`, followed by the properties of the specification that
are decided on it.

Conventions of the embedding:

* a Go `[]byte` / `string` is a `List UInt8` (Go strings are byte sequences);
* a Go `*net.UDPAddr` is an `Option UDPAddr`, `none` being the nil pointer;
* a Go `error` value is an `Option GoError`, `none` being the nil error;
* a run-time panic of a function is the result `none` of its embedding;
* the codec (`parseMessage`, `MarshalBinary`), the address resolver
  (`net.ResolveUDPAddr`), the handler and the socket are arguments.
-/

set_option autoImplicit false

namespace Coap

/-! ## Data model -/

/-- Contents of a Go byte slice or string. -/
abbrev Bytes := List UInt8

/-- The type `net.UDPAddr`: an IP (a byte slice), a port and an IPv6 zone. -/
structure UDPAddr where
  IP : List UInt8
  Port : Nat
  Zone : String
  deriving DecidableEq, Repr

/-- A Go `error` value. `plain` does not implement `net.Error`; `netError`
does, and carries what its `Temporary()` and `Timeout()` methods report. -/
inductive GoError where
  | plain (text : String)
  | netError (text : String) (temporary timeout : Bool)
  deriving DecidableEq, Repr

/-- The message shown for an error by the `%v` verb. -/
def GoError.text : GoError → String
  | .plain t => t
  | .netError t _ _ => t

/-- The test of `Serve`, line 104:
`neterr, ok := err.(net.Error); ok && (neterr.Temporary() || neterr.Timeout())`. -/
def GoError.isTransient : GoError → Bool
  | .plain _ => false
  | .netError _ temporary timeout => temporary || timeout

/-- The UTF-8 bytes of a text, as Go stores a string literal. -/
def utf8 (s : String) : Bytes := s.data.flatMap String.utf8EncodeChar

/-- The byte `{`, the opening marker. -/
def openMarker : UInt8 := 123

/-- The byte `}`, the closing marker. -/
def closeMarker : UInt8 := 125

/-! ## `getAddrJP` -/

/-- `strings.Index(s, sep)` for a one-byte `sep`: the index of the first
occurrence of the byte in `s`, or `-1` when there is none. -/
def Index (s : Bytes) (sep : UInt8) : Int :=
  if sep ∈ s then (s.indexOf sep : Int) else -1

/-- The slice expression `s[lo:hi]` on a string: it panics (`none`) unless
`0 ≤ lo ≤ hi ≤ len(s)`. -/
def sliceStr (s : Bytes) (lo hi : Int) : Option Bytes :=
  if 0 ≤ lo ∧ lo ≤ hi ∧ hi ≤ (s.length : Int) then
    some ((s.drop lo.toNat).take (hi.toNat - lo.toNat))
  else none

/-- `getAddrJP` (lines 117-133). `resolve` is `net.ResolveUDPAddr("udp", ·)`
with its error dropped (`da, _ :=`): `none` is the nil address it returns on
failure. The result is `none` when the slice expression of line 125 panics. -/
def getAddrJP (resolve : Bytes → Option UDPAddr) (buf : Bytes) :
    Option (Bool × Option UDPAddr) :=
  let bufString := buf
  let startIndexHost := Index bufString openMarker
  let finishIndexHost := Index bufString closeMarker
  let destAddr : Bytes := []
  if startIndexHost ≥ 0 ∨ finishIndexHost > 0 then
    match sliceStr bufString (startIndexHost + 1) finishIndexHost with
    | none => none
    | some destAddr =>
      let da := resolve destAddr
      some (true, da)
  else
    let da := resolve destAddr
    some (false, da)

/-- A resolver used in the examples: it resolves the literal `127.0.0.1:9999`
(as `net.ResolveUDPAddr` does, to the 4-byte IP and the port) and fails on
every other text. -/
def loopbackResolver (s : Bytes) : Option UDPAddr :=
  if s = utf8 "127.0.0.1:9999" then some ⟨[127, 0, 0, 1], 9999, ""⟩ else none

/-! ## `Transmit` and `handlePacket` -/

/-- The socket `*net.UDPConn` as `Transmit` uses it: the error returned by
`l.Write(d)` and by `l.WriteTo(d, a)` (the byte count is discarded). -/
structure UDPConn where
  Write : Bytes → Option GoError
  WriteTo : Bytes → UDPAddr → Option GoError

/-- A send performed on the socket. -/
inductive SocketCall where
  | Write (d : Bytes)
  | WriteTo (d : Bytes) (a : UDPAddr)
  deriving DecidableEq, Repr

/-- The codec, which lives outside `server.go`: `parseMessage(data)` and
`m.MarshalBinary()`, each returning a value or an error. -/
structure Codec (Message : Type) where
  parseMessage : Bytes → Except GoError Message
  MarshalBinary : Message → Except GoError Bytes

/-- `Transmit` (lines 46-58): the sends performed on the socket, in order,
and the returned error. -/
def Transmit {Message : Type} (codec : Codec Message) (l : UDPConn)
    (a : Option UDPAddr) (m : Message) : List SocketCall × Option GoError :=
  match codec.MarshalBinary m with
  | .error err => ([], some err)
  | .ok d =>
    match a with
    | none => ([.Write d], l.Write d)
    | some a => ([.WriteTo d a], l.WriteTo d a)

/-- The interface `Handler`: `ServeCOAP(l, a, m)`, returning an optional
response message (`none` is the nil pointer). -/
abbrev Handler (Message : Type) := UDPConn → Option UDPAddr → Message → Option Message

/-- What a run of `handlePacket` does, in order: a line written with
`log.Printf`, a call of the handler, a call of `Transmit`, and the socket
sends made inside that call. -/
inductive PacketEvent (Message : Type) where
  | logPrintf (text : String)
  | serveCOAP (a : Option UDPAddr) (m : Message)
  | transmit (a : Option UDPAddr) (m : Message)
  | socket (c : SocketCall)
  deriving DecidableEq, Repr

/-- `handlePacket` (lines 30-43). The function has no result; the error that
`Transmit` returns on line 41 is not bound to anything. -/
def handlePacket {Message : Type} (codec : Codec Message) (l : UDPConn)
    (data : Bytes) (u : Option UDPAddr) (rh : Handler Message) :
    List (PacketEvent Message) :=
  match codec.parseMessage data with
  | .error err => [.logPrintf ("Error parsing " ++ err.text)]
  | .ok msg =>
    match rh l u msg with
    | none => [.serveCOAP u msg]
    | some rv =>
      let (sends, _) := Transmit codec l u rv
      [.serveCOAP u msg, .transmit u rv] ++ sends.map .socket

/-! ## `Serve` -/

/-- The constant `maxPktLen`. -/
def maxPktLen : Nat := 1500

/-- The outcome of one `listener.ReadFromUDP(buf)`: a datagram with its
payload as sent and its sender, or an error. -/
inductive RecvResult where
  | datagram (payload : Bytes) (sender : UDPAddr)
  | failure (err : GoError)
  deriving DecidableEq, Repr

/-- `listener.ReadFromUDP(buf)`: the buffer afterwards, `nr`, `addr`, `err`.
A datagram is stored at the start of the buffer, cut to the length of the
buffer; a failed receive stores nothing and returns `0, nil, err`. -/
def ReadFromUDP (buf : Bytes) : RecvResult → Bytes × Nat × Option UDPAddr × Option GoError
  | .datagram payload sender =>
    let nr := min payload.length buf.length
    (payload.take nr ++ buf.drop nr, nr, some sender, none)
  | .failure err => (buf, 0, none, some err)

/-- Lines 95-98 of `Serve`: `isDiff, addrs := getAddrJP(buf)` followed by
`if isDiff { addr = addrs }`. The result is the value of `addr` afterwards,
or `none` when `getAddrJP` panics. -/
def applyOverride (resolve : Bytes → Option UDPAddr) (buf : Bytes) (addr : Option UDPAddr) :
    Option (Option UDPAddr) :=
  match getAddrJP resolve buf with
  | none => none
  | some (isDiff, addrs) => some (if isDiff then addrs else addr)

/-- `make([]byte, n)`: `n` zero bytes. -/
def makeBytes (n : Nat) : Bytes := List.replicate n 0

/-- The builtin `copy(dst, src)`: the first `min(len(dst), len(src))` bytes
of `dst` are replaced by those of `src`. -/
def copyBytes (dst src : Bytes) : Bytes :=
  src.take (min dst.length src.length) ++ dst.drop (min dst.length src.length)

/-- What `Serve` does besides receiving, in order: `time.Sleep` with its
duration in milliseconds, and `go handlePacket(listener, tmp, addr, rh)`
with the bytes `tmp` and the address `addr` given to the new task. -/
inductive ServeEvent where
  | sleep (ms : Nat)
  | spawn (tmp : Bytes) (addr : Option UDPAddr)
  deriving DecidableEq, Repr

/-- The state of the loop of `Serve`: the receive buffer, the number of
`ReadFromUDP` calls made so far, and what was done so far. -/
structure ServeState where
  buf : Bytes
  reads : Nat
  trace : List ServeEvent
  deriving DecidableEq, Repr

/-- How a run of `Serve` over a finite list of receive outcomes ends:
`blocked` in the next `ReadFromUDP` when the list is used up, `returned`
with an error, or `panicked` (in `getAddrJP`). -/
inductive ServeResult where
  | blocked (st : ServeState)
  | returned (err : GoError) (st : ServeState)
  | panicked (st : ServeState)
  deriving DecidableEq, Repr

/-- The loop of `Serve` (lines 90-113), one iteration for each receive outcome. -/
def ServeLoop (resolve : Bytes → Option UDPAddr) : ServeState → List RecvResult → ServeResult
  | st, [] => .blocked st
  | st, r :: rest =>
    match ReadFromUDP st.buf r with
    | (buf, nr, addr, err) =>
      match applyOverride resolve buf addr with
      | none => .panicked { st with buf := buf, reads := st.reads + 1 }
      | some addr =>
        match err with
        | some err =>
          if err.isTransient then
            ServeLoop resolve
              { buf := buf, reads := st.reads + 1, trace := st.trace ++ [.sleep 5] } rest
          else
            .returned err { st with buf := buf, reads := st.reads + 1 }
        | none =>
          let tmp := copyBytes (makeBytes nr) buf
          ServeLoop resolve
            { buf := buf, reads := st.reads + 1, trace := st.trace ++ [.spawn tmp addr] } rest

/-- The state in which `Serve` enters its loop: `buf := make([]byte, maxPktLen)`. -/
def ServeState.init : ServeState := { buf := makeBytes maxPktLen, reads := 0, trace := [] }

/-- `Serve` (lines 88-114) run against the receive outcomes `script`. -/
def Serve (resolve : Bytes → Option UDPAddr) (script : List RecvResult) : ServeResult :=
  ServeLoop resolve ServeState.init script

/-- The state a run ends in. -/
def ServeResult.state : ServeResult → ServeState
  | .blocked st => st
  | .returned _ st => st
  | .panicked st => st

/-- The tasks spawned in a trace, in order: the bytes and the address of each. -/
def spawned : List ServeEvent → List (Bytes × Option UDPAddr)
  | [] => []
  | .sleep _ :: es => spawned es
  | .spawn tmp addr :: es => (tmp, addr) :: spawned es

/-- The payloads of the datagrams in a list of receive outcomes, in order. -/
def payloads : List RecvResult → List Bytes
  | [] => []
  | .datagram payload _ :: rs => payload :: payloads rs
  | .failure _ :: rs => payloads rs

/-- The receive buffer after a datagram with the given payload was read
into it (the first component of `ReadFromUDP`). -/
def received (buf payload : Bytes) : Bytes :=
  (ReadFromUDP buf (.datagram payload ⟨[], 0, ""⟩)).1

/-! ## Values used in the examples -/

/-- The address `127.0.0.1:9999`. -/
def loopback9999 : UDPAddr := ⟨[127, 0, 0, 1], 9999, ""⟩

/-- A sender address, `192.0.2.1:5683`. -/
def senderA : UDPAddr := ⟨[192, 0, 2, 1], 5683, ""⟩

/-- Another sender address, `192.0.2.2:5683`. -/
def senderB : UDPAddr := ⟨[192, 0, 2, 2], 5683, ""⟩

/-- A transient error: a `net.Error` whose `Timeout()` is true. -/
def timeoutError : GoError := .netError "i/o timeout" false true

/-- A non-transient error: it does not implement `net.Error`. -/
def closedError : GoError := .plain "use of closed network connection"

/-- A codec whose messages are their own encoding. -/
def identityCodec : Codec Bytes := { parseMessage := fun d => .ok d, MarshalBinary := fun m => .ok m }

/-- A handler that answers every message with the message itself. -/
def echoHandler : Handler Bytes := fun _ _ m => some m

/-- A socket on which every send succeeds. -/
def acceptingConn : UDPConn := { Write := fun _ => none, WriteTo := fun _ _ => none }

/-- A socket on which every send fails. -/
def refusingConn : UDPConn :=
  { Write := fun _ => some (.plain "write: destination address required"),
    WriteTo := fun _ _ => some (.plain "sendto: network is unreachable") }

/-! ## Facts about `Index` and the slice expression -/

theorem Index_of_not_mem {s : Bytes} {sep : UInt8} (h : sep ∉ s) : Index s sep = -1 := by
  simp [Index, h]

theorem Index_of_mem {s : Bytes} {sep : UInt8} (h : sep ∈ s) :
    Index s sep = (s.indexOf sep : Int) := by
  simp [Index, h]

theorem Index_append_cons (pre post : Bytes) (sep : UInt8) (h : sep ∉ pre) :
    Index (pre ++ sep :: post) sep = (pre.length : Int) := by
  rw [Index_of_mem (by simp), List.indexOf_append_of_not_mem h, List.indexOf_cons_self]
  simp

theorem Index_nonneg_iff {s : Bytes} {sep : UInt8} : 0 ≤ Index s sep ↔ sep ∈ s := by
  by_cases h : sep ∈ s <;> simp [Index, h]

theorem Index_lt_length {s : Bytes} {sep : UInt8} : Index s sep < (s.length : Int) := by
  by_cases h : sep ∈ s
  · rw [Index_of_mem h]
    exact_mod_cast List.indexOf_lt_length.2 h
  · rw [Index_of_not_mem h]
    omega

theorem sliceStr_of_le (s : Bytes) (lo hi : Nat) (h₁ : lo ≤ hi) (h₂ : hi ≤ s.length) :
    sliceStr s (lo : Int) (hi : Int) = some ((s.drop lo).take (hi - lo)) := by
  have h : (0 : Int) ≤ lo ∧ (lo : Int) ≤ hi ∧ (hi : Int) ≤ s.length := by omega
  simp [sliceStr, h]

theorem sliceStr_of_lt {s : Bytes} {lo hi : Int} (h : hi < lo) : sliceStr s lo hi = none := by
  have h' : ¬ (0 ≤ lo ∧ lo ≤ hi ∧ hi ≤ (s.length : Int)) := by omega
  simp [sliceStr, h']

theorem sliceStr_between (pre mid post : Bytes) (a b : UInt8) :
    sliceStr (pre ++ a :: (mid ++ b :: post)) ((pre.length : Int) + 1)
      ((pre.length + 1 + mid.length : Nat) : Int) = some mid := by
  have h := sliceStr_of_le (pre ++ a :: (mid ++ b :: post)) (pre.length + 1)
    (pre.length + 1 + mid.length) (by omega) (by simp; omega)
  have hd : (pre ++ a :: (mid ++ b :: post)).drop (pre.length + 1) = mid ++ b :: post := by
    rw [List.drop_append_eq_append_drop]
    simp
  rw [hd] at h
  simpa using h

/-! ## The five cases of `getAddrJP` -/

/-- Neither marker in the buffer: no override. -/
theorem getAddrJP_no_marker (resolve : Bytes → Option UDPAddr) {buf : Bytes}
    (ho : openMarker ∉ buf) (hc : closeMarker ∉ buf) :
    getAddrJP resolve buf = some (false, resolve []) := by
  simp [getAddrJP, Index_of_not_mem ho, Index_of_not_mem hc]

/-- A closing marker at index 0 and no opening marker: no override. -/
theorem getAddrJP_close_at_zero (resolve : Bytes → Option UDPAddr) {post : Bytes}
    (ho : openMarker ∉ post) :
    getAddrJP resolve (closeMarker :: post) = some (false, resolve []) := by
  have h₁ : Index (closeMarker :: post) openMarker = -1 :=
    Index_of_not_mem (by simp [ho]; decide)
  have h₂ : Index (closeMarker :: post) closeMarker = 0 := by
    simpa using Index_append_cons [] post closeMarker (by simp)
  simp [getAddrJP, h₁, h₂]

/-- An opening marker and no closing marker: the slice expression panics. -/
theorem getAddrJP_open_only (resolve : Bytes → Option UDPAddr) {buf : Bytes}
    (ho : openMarker ∈ buf) (hc : closeMarker ∉ buf) :
    getAddrJP resolve buf = none := by
  have h₁ : 0 ≤ Index buf openMarker := Index_nonneg_iff.2 ho
  have h₂ : sliceStr buf (Index buf openMarker + 1) (-1) = none :=
    sliceStr_of_lt (by omega)
  simp [getAddrJP, Index_of_not_mem hc, h₁, h₂]

/-- The first closing marker before the first opening marker: the slice
expression panics. -/
theorem getAddrJP_close_first (resolve : Bytes → Option UDPAddr) {pre mid post : Bytes}
    (ho : openMarker ∉ pre) (hc : closeMarker ∉ pre) (hm : openMarker ∉ mid) :
    getAddrJP resolve (pre ++ closeMarker :: (mid ++ openMarker :: post)) = none := by
  have h₁ : Index (pre ++ closeMarker :: (mid ++ openMarker :: post)) closeMarker
      = (pre.length : Int) := Index_append_cons _ _ _ hc
  have h₂ : Index (pre ++ closeMarker :: (mid ++ openMarker :: post)) openMarker
      = ((pre.length + 1 + mid.length : Nat) : Int) := by
    have h := Index_append_cons (pre ++ closeMarker :: mid) post openMarker
      (by simp [ho, hm]; decide)
    rw [List.append_assoc, List.cons_append] at h
    rw [h]
    simp only [List.length_append, List.length_cons]
    omega
  have h₃ : sliceStr (pre ++ closeMarker :: (mid ++ openMarker :: post))
      (((pre.length + 1 + mid.length : Nat) : Int) + 1) (pre.length : Int) = none :=
    sliceStr_of_lt (by omega)
  have h₄ : ((pre.length + 1 + mid.length : Nat) : Int) ≥ 0 := by omega
  simp only [getAddrJP, h₁, h₂]
  rw [if_pos (Or.inl h₄), h₃]

/-- The first opening marker before the first closing marker: an override,
resolved from the bytes strictly between the two. -/
theorem getAddrJP_between (resolve : Bytes → Option UDPAddr) {pre mid post : Bytes}
    (ho : openMarker ∉ pre) (hc : closeMarker ∉ pre) (hm : closeMarker ∉ mid) :
    getAddrJP resolve (pre ++ openMarker :: (mid ++ closeMarker :: post))
      = some (true, resolve mid) := by
  have h₁ : Index (pre ++ openMarker :: (mid ++ closeMarker :: post)) openMarker
      = (pre.length : Int) := Index_append_cons _ _ _ ho
  have h₂ : Index (pre ++ openMarker :: (mid ++ closeMarker :: post)) closeMarker
      = ((pre.length + 1 + mid.length : Nat) : Int) := by
    have h := Index_append_cons (pre ++ openMarker :: mid) post closeMarker
      (by simp [hc, hm]; decide)
    rw [List.append_assoc, List.cons_append] at h
    rw [h]
    simp only [List.length_append, List.length_cons]
    omega
  have h₃ := sliceStr_between pre mid post openMarker closeMarker
  have h₄ : (pre.length : Int) ≥ 0 := by omega
  simp only [getAddrJP, h₁, h₂]
  rw [if_pos (Or.inl h₄), h₃]

/-- A closing marker after index 0 and no opening marker: an override,
resolved from the bytes before the closing marker. -/
theorem getAddrJP_close_only (resolve : Bytes → Option UDPAddr) {pre post : Bytes}
    (hne : pre ≠ []) (hc : closeMarker ∉ pre) (ho : openMarker ∉ pre ++ closeMarker :: post) :
    getAddrJP resolve (pre ++ closeMarker :: post) = some (true, resolve pre) := by
  have h₁ : Index (pre ++ closeMarker :: post) openMarker = -1 := Index_of_not_mem ho
  have h₂ : Index (pre ++ closeMarker :: post) closeMarker = (pre.length : Int) :=
    Index_append_cons _ _ _ hc
  have hpos : 0 < pre.length := List.length_pos.2 hne
  have h₃ : sliceStr (pre ++ closeMarker :: post) (-1 + 1) (pre.length : Int) = some pre := by
    have h := sliceStr_of_le (pre ++ closeMarker :: post) 0 pre.length
      (by omega) (by simp)
    simpa using h
  have h₄ : (pre.length : Int) > 0 := by omega
  simp only [getAddrJP, h₁, h₂]
  rw [if_pos (Or.inr h₄), h₃]

/-! ## One iteration of `Serve` -/

theorem ReadFromUDP_datagram (buf payload : Bytes) (sender : UDPAddr) :
    ReadFromUDP buf (.datagram payload sender)
      = (received buf payload, min payload.length buf.length, some sender, none) := rfl

theorem received_length (buf payload : Bytes) : (received buf payload).length = buf.length := by
  simp only [received, ReadFromUDP, List.length_append, List.length_take, List.length_drop]
  omega

theorem received_take (buf payload : Bytes) :
    (received buf payload).take (min payload.length buf.length) = payload.take buf.length := by
  simp only [received, ReadFromUDP]
  rw [List.take_append_of_le_length (by simp)]
  rw [List.take_take]
  simp only [min_self]
  rcases Nat.le_total payload.length buf.length with h | h
  · rw [Nat.min_eq_left h, List.take_of_length_le (Nat.le_refl _), List.take_of_length_le h]
  · rw [Nat.min_eq_right h]

theorem copyBytes_makeBytes {buf : Bytes} {n : Nat} (h : n ≤ buf.length) :
    copyBytes (makeBytes n) buf = buf.take n := by
  simp [copyBytes, makeBytes, Nat.min_eq_left h]

/-- The bytes given to the task of a datagram: its payload, cut to the
length of the buffer. -/
theorem tmp_eq (buf payload : Bytes) :
    copyBytes (makeBytes (min payload.length buf.length)) (received buf payload)
      = payload.take buf.length := by
  rw [copyBytes_makeBytes (by rw [received_length]; exact Nat.min_le_right _ _), received_take]

theorem applyOverride_eq_none {resolve : Bytes → Option UDPAddr} {buf : Bytes}
    {addr : Option UDPAddr} : applyOverride resolve buf addr = none ↔ getAddrJP resolve buf = none := by
  unfold applyOverride
  cases getAddrJP resolve buf <;> simp

theorem applyOverride_of_eq {resolve : Bytes → Option UDPAddr} {buf : Bytes}
    {isDiff : Bool} {addrs : Option UDPAddr} (h : getAddrJP resolve buf = some (isDiff, addrs))
    (addr : Option UDPAddr) :
    applyOverride resolve buf addr = some (if isDiff then addrs else addr) := by
  simp [applyOverride, h]

theorem ServeLoop_nil (resolve : Bytes → Option UDPAddr) (st : ServeState) :
    ServeLoop resolve st [] = .blocked st := rfl

theorem ServeLoop_datagram_panic (resolve : Bytes → Option UDPAddr) (st : ServeState)
    (payload : Bytes) (sender : UDPAddr) (rest : List RecvResult)
    (h : getAddrJP resolve (received st.buf payload) = none) :
    ServeLoop resolve st (.datagram payload sender :: rest)
      = .panicked { st with buf := received st.buf payload, reads := st.reads + 1 } := by
  have h' := (@applyOverride_eq_none resolve _ (some sender)).2 h
  simp only [ServeLoop, ReadFromUDP_datagram, h']

theorem ServeLoop_datagram_spawn (resolve : Bytes → Option UDPAddr) (st : ServeState)
    (payload : Bytes) (sender : UDPAddr) (rest : List RecvResult) {addr : Option UDPAddr}
    (h : applyOverride resolve (received st.buf payload) (some sender) = some addr) :
    ServeLoop resolve st (.datagram payload sender :: rest)
      = ServeLoop resolve
          { buf := received st.buf payload, reads := st.reads + 1,
            trace := st.trace ++ [.spawn (payload.take st.buf.length) addr] } rest := by
  simp only [ServeLoop, ReadFromUDP_datagram, h, tmp_eq]

theorem ServeLoop_failure_panic (resolve : Bytes → Option UDPAddr) (st : ServeState)
    (err : GoError) (rest : List RecvResult) (h : getAddrJP resolve st.buf = none) :
    ServeLoop resolve st (.failure err :: rest)
      = .panicked { st with reads := st.reads + 1 } := by
  have h' := (@applyOverride_eq_none resolve _ none).2 h
  simp only [ServeLoop, ReadFromUDP, h']

theorem ServeLoop_failure_transient (resolve : Bytes → Option UDPAddr) (st : ServeState)
    (err : GoError) (rest : List RecvResult) {addr : Option UDPAddr}
    (h : applyOverride resolve st.buf none = some addr) (ht : err.isTransient = true) :
    ServeLoop resolve st (.failure err :: rest)
      = ServeLoop resolve
          { buf := st.buf, reads := st.reads + 1, trace := st.trace ++ [.sleep 5] } rest := by
  simp only [ServeLoop, ReadFromUDP, h, ht, if_true]

theorem ServeLoop_failure_fatal (resolve : Bytes → Option UDPAddr) (st : ServeState)
    (err : GoError) (rest : List RecvResult) {addr : Option UDPAddr}
    (h : applyOverride resolve st.buf none = some addr) (ht : err.isTransient = false) :
    ServeLoop resolve st (.failure err :: rest)
      = .returned err { st with reads := st.reads + 1 } := by
  simp [ServeLoop, ReadFromUDP, h, ht]

/-! ## Runs of `Serve` -/

/-- What one iteration does when it ends in `blocked`, that is when the loop
goes on to its next receive. -/
theorem ServeLoop_single_blocked {resolve : Bytes → Option UDPAddr} {st st' : ServeState}
    {r : RecvResult} (h : ServeLoop resolve st [r] = .blocked st') :
    st'.buf.length = st.buf.length ∧ st'.reads = st.reads + 1 ∧
    getAddrJP resolve st'.buf ≠ none ∧
    ((∃ payload sender addr, r = .datagram payload sender ∧
        applyOverride resolve (received st.buf payload) (some sender) = some addr ∧
        st'.buf = received st.buf payload ∧
        st'.trace = st.trace ++ [.spawn (payload.take st.buf.length) addr]) ∨
     (∃ err, r = .failure err ∧ err.isTransient = true ∧ st'.buf = st.buf ∧
        st'.trace = st.trace ++ [.sleep 5])) := by
  cases r with
  | datagram payload sender =>
    cases hg : applyOverride resolve (received st.buf payload) (some sender) with
    | none =>
      rw [ServeLoop_datagram_panic resolve st payload sender [] (applyOverride_eq_none.1 hg)] at h
      cases h
    | some addr =>
      rw [ServeLoop_datagram_spawn resolve st payload sender [] hg, ServeLoop_nil] at h
      cases h
      refine ⟨received_length _ _, rfl, ?_, Or.inl ⟨payload, sender, addr, rfl, hg, rfl, rfl⟩⟩
      intro hn
      rw [applyOverride_eq_none.2 hn] at hg
      cases hg
  | failure err =>
    cases hg : applyOverride resolve st.buf none with
    | none =>
      rw [ServeLoop_failure_panic resolve st err [] (applyOverride_eq_none.1 hg)] at h
      cases h
    | some addr =>
      cases ht : err.isTransient with
      | false =>
        rw [ServeLoop_failure_fatal resolve st err [] hg ht] at h
        cases h
      | true =>
        rw [ServeLoop_failure_transient resolve st err [] hg ht, ServeLoop_nil] at h
        cases h
        refine ⟨rfl, rfl, ?_, Or.inr ⟨err, rfl, ht, rfl, rfl⟩⟩
        intro hn
        rw [applyOverride_eq_none.2 hn] at hg
        cases hg

/-- The loop over `r :: rest` is one iteration followed, when that iteration
goes on, by the loop over `rest`. -/
theorem ServeLoop_cons (resolve : Bytes → Option UDPAddr) (st : ServeState) (r : RecvResult)
    (rest : List RecvResult) :
    ServeLoop resolve st (r :: rest) =
      match ServeLoop resolve st [r] with
      | .blocked st' => ServeLoop resolve st' rest
      | res => res := by
  cases r with
  | datagram payload sender =>
    cases hg : applyOverride resolve (received st.buf payload) (some sender) with
    | none =>
      rw [ServeLoop_datagram_panic resolve st payload sender rest (applyOverride_eq_none.1 hg),
        ServeLoop_datagram_panic resolve st payload sender [] (applyOverride_eq_none.1 hg)]
    | some addr =>
      rw [ServeLoop_datagram_spawn resolve st payload sender rest hg,
        ServeLoop_datagram_spawn resolve st payload sender [] hg, ServeLoop_nil]
  | failure err =>
    cases hg : applyOverride resolve st.buf none with
    | none =>
      rw [ServeLoop_failure_panic resolve st err rest (applyOverride_eq_none.1 hg),
        ServeLoop_failure_panic resolve st err [] (applyOverride_eq_none.1 hg)]
    | some addr =>
      cases ht : err.isTransient with
      | false =>
        rw [ServeLoop_failure_fatal resolve st err rest hg ht,
          ServeLoop_failure_fatal resolve st err [] hg ht]
      | true =>
        rw [ServeLoop_failure_transient resolve st err rest hg ht,
          ServeLoop_failure_transient resolve st err [] hg ht, ServeLoop_nil]

/-- The loop over `pre ++ rest` is the loop over `pre` followed, when that
ends in `blocked`, by the loop over `rest`. -/
theorem ServeLoop_append (resolve : Bytes → Option UDPAddr) (pre rest : List RecvResult) :
    ∀ st : ServeState, ServeLoop resolve st (pre ++ rest) =
      match ServeLoop resolve st pre with
      | .blocked st' => ServeLoop resolve st' rest
      | res => res := by
  induction pre with
  | nil => intro st; rfl
  | cons r pre ih =>
    intro st
    rw [List.cons_append, ServeLoop_cons resolve st r (pre ++ rest), ServeLoop_cons resolve st r pre]
    cases ServeLoop resolve st [r] with
    | blocked st' => exact ih st'
    | returned err st' => rfl
    | panicked st' => rfl

theorem ServeLoop_append_of_blocked {resolve : Bytes → Option UDPAddr} {pre : List RecvResult}
    {st st' : ServeState} (h : ServeLoop resolve st pre = .blocked st') (rest : List RecvResult) :
    ServeLoop resolve st (pre ++ rest) = ServeLoop resolve st' rest := by
  rw [ServeLoop_append, h]

/-- After a run that ends in `blocked`: the number of receives made, the
length of the buffer, and that `getAddrJP` does not panic on the buffer as
it stands. -/
theorem ServeLoop_blocked_inv {resolve : Bytes → Option UDPAddr} :
    ∀ (script : List RecvResult) {st st' : ServeState},
      ServeLoop resolve st script = .blocked st' →
      st'.reads = st.reads + script.length ∧ st'.buf.length = st.buf.length ∧
      (getAddrJP resolve st.buf ≠ none → getAddrJP resolve st'.buf ≠ none) := by
  intro script
  induction script with
  | nil =>
    intro st st' h
    rw [ServeLoop_nil] at h
    cases h
    exact ⟨rfl, rfl, id⟩
  | cons r rest ih =>
    intro st st' h
    rw [ServeLoop_cons] at h
    cases h₁ : ServeLoop resolve st [r] with
    | blocked st₁ =>
      rw [h₁] at h
      obtain ⟨hl, hr, hs, -⟩ := ServeLoop_single_blocked h₁
      obtain ⟨hr', hl', hs'⟩ := ih h
      refine ⟨?_, by rw [hl', hl], fun _ => hs' hs⟩
      rw [hr', hr, List.length_cons]
      omega
    | returned err st₁ => rw [h₁] at h; cases h
    | panicked st₁ => rw [h₁] at h; cases h

theorem getAddrJP_makeBytes (resolve : Bytes → Option UDPAddr) (n : Nat) :
    getAddrJP resolve (makeBytes n) = some (false, resolve []) := by
  apply getAddrJP_no_marker <;>
  · simp only [makeBytes, List.mem_replicate, not_and]
    intro _
    decide

theorem received_of_le {buf payload : Bytes} (h : payload.length ≤ buf.length) :
    received buf payload = payload ++ buf.drop payload.length := by
  simp only [received, ReadFromUDP, Nat.min_eq_left h, List.take_of_length_le (Nat.le_refl _)]

theorem makeBytes_length (n : Nat) : (makeBytes n).length = n := by
  simp [makeBytes]

theorem openMarker_not_mem_makeBytes (n : Nat) : openMarker ∉ makeBytes n := by
  simp only [makeBytes, List.mem_replicate, not_and]
  intro _
  decide

theorem closeMarker_not_mem_makeBytes (n : Nat) : closeMarker ∉ makeBytes n := by
  simp only [makeBytes, List.mem_replicate, not_and]
  intro _
  decide

theorem drop_makeBytes (n k : Nat) : (makeBytes n).drop k = makeBytes (n - k) := by
  simp [makeBytes]

/-- A run over receive outcomes without a non-transient error does not return. -/
theorem ServeLoop_not_returned {resolve : Bytes → Option UDPAddr} :
    ∀ (script : List RecvResult),
      (∀ err, RecvResult.failure err ∈ script → err.isTransient = true) →
      ∀ (st : ServeState) (e : GoError) (st' : ServeState),
        ServeLoop resolve st script ≠ .returned e st' := by
  intro script
  induction script with
  | nil => intro _ st e st' h; rw [ServeLoop_nil] at h; cases h
  | cons r rest ih =>
    intro hall st e st' h
    have hrest : ∀ err, RecvResult.failure err ∈ rest → err.isTransient = true :=
      fun err hm => hall err (List.mem_cons_of_mem _ hm)
    cases r with
    | datagram payload sender =>
      cases hg : applyOverride resolve (received st.buf payload) (some sender) with
      | none =>
        rw [ServeLoop_datagram_panic resolve st payload sender rest
          (applyOverride_eq_none.1 hg)] at h
        cases h
      | some addr =>
        rw [ServeLoop_datagram_spawn resolve st payload sender rest hg] at h
        exact ih hrest _ _ _ h
    | failure err =>
      have ht : err.isTransient = true := hall err (List.mem_cons_self _ _)
      cases hg : applyOverride resolve st.buf none with
      | none =>
        rw [ServeLoop_failure_panic resolve st err rest (applyOverride_eq_none.1 hg)] at h
        cases h
      | some addr =>
        rw [ServeLoop_failure_transient resolve st err rest hg ht] at h
        exact ih hrest _ _ _ h

/-- A run of transient failures from a state on whose buffer `getAddrJP`
does not panic: one sleep of 5 ms for each, nothing else. -/
theorem ServeLoop_transient_failures {resolve : Bytes → Option UDPAddr} :
    ∀ (errs : List GoError), (∀ err ∈ errs, err.isTransient = true) →
      ∀ (st : ServeState), getAddrJP resolve st.buf ≠ none →
      ∀ (rest : List RecvResult),
        ServeLoop resolve st (errs.map .failure ++ rest) =
          ServeLoop resolve
            { buf := st.buf, reads := st.reads + errs.length,
              trace := st.trace ++ List.replicate errs.length (.sleep 5) } rest := by
  intro errs
  induction errs with
  | nil => intro _ st _ rest; simp
  | cons err errs ih =>
    intro hall st hs rest
    have ht : err.isTransient = true := hall err (List.mem_cons_self _ _)
    cases hg : applyOverride resolve st.buf none with
    | none => exact absurd (applyOverride_eq_none.1 hg) hs
    | some addr =>
      rw [List.map_cons, List.cons_append, ServeLoop_failure_transient resolve st err _ hg ht,
        ih (fun e he => hall e (List.mem_cons_of_mem _ he))
          { buf := st.buf, reads := st.reads + 1, trace := st.trace ++ [.sleep 5] } hs rest]
      simp only [List.length_cons, List.replicate_succ, List.append_assoc, List.singleton_append,
        Nat.add_assoc, Nat.add_comm 1]

theorem not_mem_received {sep : UInt8} {buf payload : Bytes} (hp : sep ∉ payload)
    (hb : sep ∉ buf) : sep ∉ received buf payload := by
  simp only [received, ReadFromUDP, List.mem_append, not_or]
  exact ⟨fun h => hp (List.mem_of_mem_take h), fun h => hb (List.mem_of_mem_drop h)⟩

theorem applyOverride_no_marker (resolve : Bytes → Option UDPAddr) {buf : Bytes}
    (ho : openMarker ∉ buf) (hc : closeMarker ∉ buf) (addr : Option UDPAddr) :
    applyOverride resolve buf addr = some addr := by
  simp [applyOverride, getAddrJP_no_marker resolve ho hc]

/-- An iteration on a datagram when neither the payload nor the buffer
before it holds a marker: a task with the payload and the sender. -/
theorem ServeLoop_datagram_plain (resolve : Bytes → Option UDPAddr) (st : ServeState)
    (payload : Bytes) (sender : UDPAddr) (rest : List RecvResult)
    (hpo : openMarker ∉ payload) (hpc : closeMarker ∉ payload)
    (hbo : openMarker ∉ st.buf) (hbc : closeMarker ∉ st.buf) :
    ServeLoop resolve st (.datagram payload sender :: rest)
      = ServeLoop resolve
          { buf := received st.buf payload, reads := st.reads + 1,
            trace := st.trace ++ [.spawn (payload.take st.buf.length) (some sender)] } rest :=
  ServeLoop_datagram_spawn resolve st payload sender rest
    (applyOverride_no_marker resolve (not_mem_received hpo hbo) (not_mem_received hpc hbc) _)

/-- The trace of a run extends the trace it started from, and the bytes of
the tasks it adds are, in order, the payloads received, each cut to the
length of the buffer. -/
theorem ServeLoop_trace {resolve : Bytes → Option UDPAddr} :
    ∀ (script : List RecvResult) (st : ServeState),
      ∃ t, (ServeLoop resolve st script).state.trace = st.trace ++ t ∧
        (spawned t).map Prod.fst <+: (payloads script).map (List.take st.buf.length) ∧
        (∀ st', ServeLoop resolve st script = .blocked st' →
          (spawned t).map Prod.fst = (payloads script).map (List.take st.buf.length)) := by
  intro script
  induction script with
  | nil =>
    intro st
    exact ⟨[], by simp [ServeLoop, ServeResult.state], by simp [spawned, payloads],
      fun _ _ => by simp [spawned, payloads]⟩
  | cons r rest ih =>
    intro st
    cases r with
    | datagram payload sender =>
      cases hg : applyOverride resolve (received st.buf payload) (some sender) with
      | none =>
        rw [ServeLoop_datagram_panic resolve st payload sender rest (applyOverride_eq_none.1 hg)]
        exact ⟨[], by simp [ServeResult.state], by simp [spawned], fun _ h => by cases h⟩
      | some addr =>
        rw [ServeLoop_datagram_spawn resolve st payload sender rest hg]
        obtain ⟨t, ht, hp, hb⟩ := ih
          { buf := received st.buf payload, reads := st.reads + 1,
            trace := st.trace ++ [.spawn (payload.take st.buf.length) addr] }
        simp only [received_length] at hp hb
        refine ⟨.spawn (payload.take st.buf.length) addr :: t, by simpa using ht, ?_, ?_⟩
        · simpa [spawned, payloads, List.cons_prefix_cons] using hp
        · intro st' h
          simpa [spawned, payloads] using hb st' h
    | failure err =>
      cases hg : applyOverride resolve st.buf none with
      | none =>
        rw [ServeLoop_failure_panic resolve st err rest (applyOverride_eq_none.1 hg)]
        exact ⟨[], by simp [ServeResult.state], by simp [spawned], fun _ h => by cases h⟩
      | some addr =>
        cases hte : err.isTransient with
        | false =>
          rw [ServeLoop_failure_fatal resolve st err rest hg hte]
          exact ⟨[], by simp [ServeResult.state], by simp [spawned], fun _ h => by cases h⟩
        | true =>
          rw [ServeLoop_failure_transient resolve st err rest hg hte]
          obtain ⟨t, ht, hp, hb⟩ := ih
            { buf := st.buf, reads := st.reads + 1, trace := st.trace ++ [.sleep 5] }
          refine ⟨.sleep 5 :: t, by simpa using ht, ?_, ?_⟩
          · simpa [spawned, payloads] using hp
          · intro st' h
            simpa [spawned, payloads] using hb st' h

theorem received_init {payload : Bytes} {n : Nat} (h : payload.length + n = maxPktLen) :
    received (makeBytes maxPktLen) payload = payload ++ makeBytes n := by
  rw [received_of_le (by rw [makeBytes_length]; omega), drop_makeBytes]
  congr 2
  omega

theorem take_init {payload : Bytes} (h : payload.length ≤ maxPktLen) :
    payload.take (makeBytes maxPktLen).length = payload := by
  rw [makeBytes_length]
  exact List.take_of_length_le h

/-- Transient failures followed by a datagram on whose buffer `getAddrJP`
does not panic: a sleep of 5 ms for each failure, then one task holding the
datagram, and `Serve` goes on to its next receive. -/
theorem Serve_transient_then_datagram (resolve : Bytes → Option UDPAddr) (errs : List GoError)
    (payload : Bytes) (sender : UDPAddr) {addr : Option UDPAddr}
    (herrs : ∀ err ∈ errs, err.isTransient = true)
    (hg : applyOverride resolve (received (makeBytes maxPktLen) payload) (some sender) = some addr) :
    Serve resolve (errs.map .failure ++ [.datagram payload sender])
      = .blocked
          { buf := received (makeBytes maxPktLen) payload, reads := errs.length + 1,
            trace := List.replicate errs.length (.sleep 5)
              ++ [.spawn (payload.take maxPktLen) addr] } := by
  unfold Serve
  rw [ServeLoop_transient_failures errs herrs ServeState.init
    (by rw [ServeState.init, getAddrJP_makeBytes]; simp)]
  rw [@ServeLoop_datagram_spawn resolve
    { buf := ServeState.init.buf, reads := ServeState.init.reads + errs.length,
      trace := ServeState.init.trace ++ List.replicate errs.length (.sleep 5) }
    payload sender [] addr hg, ServeLoop_nil]
  simp only [ServeState.init, makeBytes_length, List.nil_append, Nat.zero_add]

/-! ## Fatal and transient receive errors -/

/-- C6. Let the receives before the k-th return no non-transient error and
let `Serve`, started on the zeroed buffer, not panic on them. Then `Serve`
is waiting for its k-th receive in some state `st`, and when that receive
returns the non-transient error `e`, `Serve` returns exactly `e`: whatever
outcomes `post` would follow, the number of receives made is `k`, and the
buffer and the trace (sleeps and spawned tasks) are those of `st`, so no
task is spawned for the k-th receive. -/
theorem Serve_returns_first_fatal_error (resolve : Bytes → Option UDPAddr)
    (pre post : List RecvResult) (e : GoError)
    (hfirst : ∀ err, RecvResult.failure err ∈ pre → err.isTransient = true)
    (hcompleted : ∀ st, Serve resolve pre ≠ .panicked st)
    (hfatal : e.isTransient = false) :
    ∃ st, Serve resolve pre = .blocked st ∧
      Serve resolve (pre ++ .failure e :: post)
        = .returned e { buf := st.buf, reads := pre.length + 1, trace := st.trace } := by
  cases hpre : Serve resolve pre with
  | returned err st => exact absurd hpre (ServeLoop_not_returned pre hfirst _ _ _)
  | panicked st => exact absurd hpre (hcompleted st)
  | blocked st =>
    refine ⟨st, rfl, ?_⟩
    obtain ⟨hr, -, hs⟩ := ServeLoop_blocked_inv pre hpre
    have hsafe : getAddrJP resolve st.buf ≠ none :=
      hs (by rw [ServeState.init, getAddrJP_makeBytes]; simp)
    unfold Serve at hpre ⊢
    rw [ServeLoop_append_of_blocked hpre]
    cases hg : applyOverride resolve st.buf none with
    | none => exact absurd (applyOverride_eq_none.1 hg) hsafe
    | some addr =>
      rw [ServeLoop_failure_fatal resolve st e post hg hfatal, hr]
      simp [ServeState.init]

/-- Witness of C6: a timeout, a datagram `hello` and then the fatal error;
a datagram that would follow is never received. -/
theorem Serve_returns_first_fatal_error_witness :
    ∃ st, Serve loopbackResolver
        [.failure timeoutError, .datagram (utf8 "hello") senderA] = .blocked st ∧
      Serve loopbackResolver
        ([.failure timeoutError, .datagram (utf8 "hello") senderA]
          ++ .failure closedError :: [.datagram (utf8 "late") senderB])
        = .returned closedError { buf := st.buf, reads := 2 + 1, trace := st.trace } := by
  have hrun : Serve loopbackResolver [.failure timeoutError, .datagram (utf8 "hello") senderA]
      = .blocked
          { buf := received (makeBytes maxPktLen) (utf8 "hello"), reads := 0 + 1 + 1,
            trace := [] ++ [.sleep 5] ++ [.spawn ((utf8 "hello").take (makeBytes maxPktLen).length)
              (some senderA)] } := by
    unfold Serve
    rw [ServeLoop_failure_transient loopbackResolver ServeState.init timeoutError _
      (applyOverride_no_marker loopbackResolver (openMarker_not_mem_makeBytes _)
        (closeMarker_not_mem_makeBytes _) none) rfl]
    rw [ServeLoop_datagram_plain loopbackResolver _ (utf8 "hello") senderA []
      (by decide) (by decide) (openMarker_not_mem_makeBytes _) (closeMarker_not_mem_makeBytes _)]
    rfl
  exact Serve_returns_first_fatal_error loopbackResolver
    [.failure timeoutError, .datagram (utf8 "hello") senderA] [.datagram (utf8 "late") senderB]
    closedError
    (by intro err h; simp at h; subst h; rfl)
    (by intro st h; rw [hrun] at h; cases h)
    rfl

/-! ## The override: what `getAddrJP` extracts -/

/-- C5. When the first `{` of the buffer is at index `i` and its first `}`
at an index `j > i`, `getAddrJP` reports an override whose address is what
the resolver returns for the bytes at the indices `i+1 .. j-1`; `Serve`
replaces the sender of the datagram by it, and spawns the task with it.
When the resolver fails on these bytes (it returns nil), the override is
still reported, and the address `Serve` uses is nil, not the sender. -/
theorem getAddrJP_first_open_before_first_close (resolve : Bytes → Option UDPAddr)
    (buf : Bytes) (i j : Nat)
    (hi : Index buf openMarker = (i : Int)) (hj : Index buf closeMarker = (j : Int))
    (hij : i < j) :
    getAddrJP resolve buf = some (true, resolve ((buf.drop (i + 1)).take (j - (i + 1)))) ∧
    (∀ sender : UDPAddr, applyOverride resolve buf (some sender)
        = some (resolve ((buf.drop (i + 1)).take (j - (i + 1))))) ∧
    (∀ (st : ServeState) (payload : Bytes) (sender : UDPAddr) (rest : List RecvResult),
      received st.buf payload = buf →
      ServeLoop resolve st (.datagram payload sender :: rest)
        = ServeLoop resolve
            { buf := buf, reads := st.reads + 1,
              trace := st.trace ++ [.spawn (payload.take st.buf.length)
                (resolve ((buf.drop (i + 1)).take (j - (i + 1))))] } rest) ∧
    (resolve ((buf.drop (i + 1)).take (j - (i + 1))) = none →
      getAddrJP resolve buf = some (true, none) ∧
      ∀ sender : UDPAddr, applyOverride resolve buf (some sender) = some none ∧
        applyOverride resolve buf (some sender) ≠ some (some sender)) := by
  have hg : getAddrJP resolve buf
      = some (true, resolve ((buf.drop (i + 1)).take (j - (i + 1)))) := by
    have hlt : (j : Int) < (buf.length : Int) := hj ▸ Index_lt_length
    have hs := sliceStr_of_le buf (i + 1) j (by omega) (by omega)
    have hc : (i : Int) ≥ 0 := by omega
    simp only [getAddrJP, hi, hj]
    rw [if_pos (Or.inl hc)]
    rw [show ((i : Int) + 1) = ((i + 1 : Nat) : Int) by simp, hs]
  have ha : ∀ sender : UDPAddr, applyOverride resolve buf (some sender)
      = some (resolve ((buf.drop (i + 1)).take (j - (i + 1)))) := by
    intro sender
    rw [applyOverride_of_eq hg]
    rfl
  refine ⟨hg, ha, ?_, ?_⟩
  · intro st payload sender rest hb
    subst hb
    exact ServeLoop_datagram_spawn resolve st payload sender rest (ha sender)
  · intro hn
    refine ⟨by rw [hg, hn], fun sender => ?_⟩
    rw [ha sender, hn]
    exact ⟨rfl, by simp⟩

/-- Witness of C5: in `ab{127.0.0.1:9999}cd` the first `{` is at index 2 and
the first `}` at index 17. -/
theorem getAddrJP_first_open_before_first_close_witness :
    getAddrJP loopbackResolver (utf8 "ab\x7b127.0.0.1:9999\x7dcd")
      = some (true, loopbackResolver (((utf8 "ab\x7b127.0.0.1:9999\x7dcd").drop (2 + 1)).take (17 - (2 + 1)))) :=
  (getAddrJP_first_open_before_first_close loopbackResolver (utf8 "ab\x7b127.0.0.1:9999\x7dcd") 2 17
    (by decide) (by decide) (by decide)).1

/-- Counterexample to C1. The buffer `{x}{127.0.0.1:9999}` contains
`{127.0.0.1:9999}` and the resolver succeeds on `127.0.0.1:9999`, yet
`getAddrJP` resolves `x`, the text between the first `{` and the first `}`:
the address reported, and used by `Serve` in place of the sender, is nil. -/
theorem getAddrJP_embedded_address_counterexample :
    utf8 "\x7bx\x7d\x7b127.0.0.1:9999\x7d"
      = utf8 "\x7bx\x7d" ++ openMarker :: (utf8 "127.0.0.1:9999" ++ closeMarker :: []) ∧
    loopbackResolver (utf8 "127.0.0.1:9999") = some loopback9999 ∧
    getAddrJP loopbackResolver (utf8 "\x7bx\x7d\x7b127.0.0.1:9999\x7d") = some (true, none) ∧
    applyOverride loopbackResolver (utf8 "\x7bx\x7d\x7b127.0.0.1:9999\x7d") (some senderA) = some none ∧
    applyOverride loopbackResolver (utf8 "\x7bx\x7d\x7b127.0.0.1:9999\x7d") (some senderA)
      ≠ some (loopbackResolver (utf8 "127.0.0.1:9999")) := by
  decide

/-- C1, amended. When the buffer is `pre ++ {addr} ++ post` with no `{` and
no `}` in `pre` and no `}` in `addr` (so that the markers around `addr` are
the first `{` and the first `}` of the buffer), and the resolver succeeds on
`addr` with the address `a`, then `getAddrJP` reports an override with `a`,
and `Serve` uses `a` for the datagram, whatever sender the socket reported. -/
theorem getAddrJP_embedded_address (resolve : Bytes → Option UDPAddr)
    (pre addr post : Bytes) (a : UDPAddr)
    (ho : openMarker ∉ pre) (hc : closeMarker ∉ pre) (hm : closeMarker ∉ addr)
    (hr : resolve addr = some a) :
    getAddrJP resolve (pre ++ openMarker :: (addr ++ closeMarker :: post)) = some (true, some a) ∧
    (∀ sender : Option UDPAddr,
      applyOverride resolve (pre ++ openMarker :: (addr ++ closeMarker :: post)) sender
        = some (some a)) ∧
    (∀ (st : ServeState) (payload : Bytes) (sender : UDPAddr) (rest : List RecvResult),
      received st.buf payload = pre ++ openMarker :: (addr ++ closeMarker :: post) →
      ServeLoop resolve st (.datagram payload sender :: rest)
        = ServeLoop resolve
            { buf := pre ++ openMarker :: (addr ++ closeMarker :: post), reads := st.reads + 1,
              trace := st.trace ++ [.spawn (payload.take st.buf.length) (some a)] } rest) := by
  have hg := @getAddrJP_between resolve pre addr post ho hc hm
  rw [hr] at hg
  have ha : ∀ sender : Option UDPAddr,
      applyOverride resolve (pre ++ openMarker :: (addr ++ closeMarker :: post)) sender
        = some (some a) := by
    intro sender
    rw [applyOverride_of_eq hg]
    rfl
  refine ⟨hg, ha, ?_⟩
  intro st payload sender rest hb
  have h := @ServeLoop_datagram_spawn resolve st payload sender rest (some a)
    (by rw [hb]; exact ha _)
  rw [h, hb]

/-- Witness of C1, amended: the buffer `ab{127.0.0.1:9999}cd`. -/
theorem getAddrJP_embedded_address_witness :
    getAddrJP loopbackResolver
        (utf8 "ab" ++ openMarker :: (utf8 "127.0.0.1:9999" ++ closeMarker :: utf8 "cd"))
      = some (true, some loopback9999) :=
  (getAddrJP_embedded_address loopbackResolver (utf8 "ab") (utf8 "127.0.0.1:9999") (utf8 "cd")
    loopback9999 (by decide) (by decide) (by decide) (by decide)).1

/-! ## The override: where `getAddrJP` goes wrong -/

/-- C2, at a failing input. The datagram `x}` read into the zeroed buffer
gives a buffer without `{`, on which `getAddrJP` nevertheless reports an
override, with the address resolved from the text `x` before the `}`; the
task is spawned with that address and not with the sender. -/
theorem Serve_close_marker_only (resolve : Bytes → Option UDPAddr) (sender : UDPAddr) :
    openMarker ∉ utf8 "x\x7d" ++ makeBytes 1498 ∧
    getAddrJP resolve (utf8 "x\x7d" ++ makeBytes 1498) = some (true, resolve (utf8 "x")) ∧
    Serve resolve [.datagram (utf8 "x\x7d") sender]
      = .blocked
          { buf := utf8 "x\x7d" ++ makeBytes 1498, reads := 1,
            trace := [.spawn (utf8 "x\x7d") (resolve (utf8 "x"))] } := by
  have hb : received (makeBytes maxPktLen) (utf8 "x\x7d") = utf8 "x\x7d" ++ makeBytes 1498 :=
    received_init (by decide)
  have he : utf8 "x\x7d" ++ makeBytes 1498 = utf8 "x" ++ closeMarker :: makeBytes 1498 := by
    rw [show utf8 "x\x7d" = utf8 "x" ++ [closeMarker] by decide]
    simp
  have ho : openMarker ∉ utf8 "x\x7d" ++ makeBytes 1498 := by
    rw [List.mem_append, not_or]
    exact ⟨by decide, openMarker_not_mem_makeBytes _⟩
  have hg : getAddrJP resolve (utf8 "x\x7d" ++ makeBytes 1498) = some (true, resolve (utf8 "x")) := by
    rw [he]
    exact getAddrJP_close_only resolve (by decide) (by decide) (he ▸ ho)
  refine ⟨ho, hg, ?_⟩
  unfold Serve
  rw [@ServeLoop_datagram_spawn resolve ServeState.init (utf8 "x\x7d") sender []
    (resolve (utf8 "x"))
    (by rw [ServeState.init, hb, applyOverride_of_eq hg]; rfl), ServeLoop_nil]
  simp only [ServeState.init, hb, take_init (show (utf8 "x\x7d").length ≤ maxPktLen by decide)]
  rfl

/-- C3, at a failing input. The datagram `{` read into the zeroed buffer
gives a buffer with a `{` and no `}`: `getAddrJP` panics on the slice
`bufString[1:-1]` and `Serve` ends there, without a receive error. -/
theorem Serve_open_marker_only_panics (resolve : Bytes → Option UDPAddr) (sender : UDPAddr) :
    closeMarker ∉ utf8 "\x7b" ++ makeBytes 1499 ∧
    getAddrJP resolve (utf8 "\x7b" ++ makeBytes 1499) = none ∧
    Serve resolve [.datagram (utf8 "\x7b") sender]
      = .panicked { buf := utf8 "\x7b" ++ makeBytes 1499, reads := 1, trace := [] } := by
  have hb : received (makeBytes maxPktLen) (utf8 "\x7b") = utf8 "\x7b" ++ makeBytes 1499 :=
    received_init (by decide)
  have hc : closeMarker ∉ utf8 "\x7b" ++ makeBytes 1499 := by
    rw [List.mem_append, not_or]
    exact ⟨by decide, closeMarker_not_mem_makeBytes _⟩
  have hg : getAddrJP resolve (utf8 "\x7b" ++ makeBytes 1499) = none :=
    getAddrJP_open_only resolve (List.mem_append_left _ (by decide)) hc
  refine ⟨hc, hg, ?_⟩
  unfold Serve
  rw [ServeLoop_datagram_panic resolve ServeState.init (utf8 "\x7b") sender []
    (by rw [ServeState.init, hb]; exact hg)]
  simp only [ServeState.init, hb]

/-- C4, at a failing input. After the 18-byte datagram `xx{127.0.0.1:9999}`
the 2-byte datagram `hi`, which holds no marker, leaves the buffer
`hi{127.0.0.1:9999}` followed by zero bytes; `getAddrJP` scans the whole
buffer, so the task of `hi` is spawned with the address resolved from
`127.0.0.1:9999`, bytes of the earlier datagram, and not with its sender. -/
theorem Serve_scans_stale_bytes (resolve : Bytes → Option UDPAddr) (senderOfFirst senderOfSecond : UDPAddr) :
    openMarker ∉ utf8 "hi" ∧ closeMarker ∉ utf8 "hi" ∧
    Serve resolve [.datagram (utf8 "xx\x7b127.0.0.1:9999\x7d") senderOfFirst,
        .datagram (utf8 "hi") senderOfSecond]
      = .blocked
          { buf := utf8 "hi\x7b127.0.0.1:9999\x7d" ++ makeBytes 1482, reads := 2,
            trace := [.spawn (utf8 "xx\x7b127.0.0.1:9999\x7d") (resolve (utf8 "127.0.0.1:9999")),
              .spawn (utf8 "hi") (resolve (utf8 "127.0.0.1:9999"))] } := by
  refine ⟨by decide, by decide, ?_⟩
  have hb₁ : received (makeBytes maxPktLen) (utf8 "xx\x7b127.0.0.1:9999\x7d")
      = utf8 "xx" ++ openMarker :: (utf8 "127.0.0.1:9999" ++ closeMarker :: makeBytes 1482) := by
    rw [@received_init _ 1482 (by decide)]
    rw [show utf8 "xx\x7b127.0.0.1:9999\x7d"
      = utf8 "xx" ++ openMarker :: (utf8 "127.0.0.1:9999" ++ [closeMarker]) by decide]
    simp
  have hl₁ : (utf8 "xx" ++ openMarker :: (utf8 "127.0.0.1:9999" ++ closeMarker :: makeBytes 1482)).length
      = maxPktLen := by
    rw [← hb₁, received_length, makeBytes_length]
  have hb₂ : received
      (utf8 "xx" ++ openMarker :: (utf8 "127.0.0.1:9999" ++ closeMarker :: makeBytes 1482))
      (utf8 "hi")
      = utf8 "hi" ++ openMarker :: (utf8 "127.0.0.1:9999" ++ closeMarker :: makeBytes 1482) := by
    rw [received_of_le (by rw [hl₁]; decide)]
    rw [show (utf8 "hi").length = (utf8 "xx").length by decide, List.drop_left]
  have hfinal : utf8 "hi\x7b127.0.0.1:9999\x7d" ++ makeBytes 1482
      = utf8 "hi" ++ openMarker :: (utf8 "127.0.0.1:9999" ++ closeMarker :: makeBytes 1482) := by
    rw [show utf8 "hi\x7b127.0.0.1:9999\x7d"
      = utf8 "hi" ++ openMarker :: (utf8 "127.0.0.1:9999" ++ [closeMarker]) by decide]
    simp
  unfold Serve
  rw [@ServeLoop_datagram_spawn resolve ServeState.init (utf8 "xx\x7b127.0.0.1:9999\x7d")
    senderOfFirst _ (resolve (utf8 "127.0.0.1:9999"))
    (by
      rw [ServeState.init, hb₁, applyOverride_of_eq
        (getAddrJP_between resolve (by decide) (by decide) (by decide))]
      rfl)]
  simp only [ServeState.init, hb₁]
  rw [@ServeLoop_datagram_spawn resolve _ (utf8 "hi") senderOfSecond []
    (resolve (utf8 "127.0.0.1:9999"))
    (by
      simp only [hb₂]
      rw [applyOverride_of_eq (getAddrJP_between resolve (by decide) (by decide) (by decide))]
      rfl), ServeLoop_nil]
  simp only [hb₂, hl₁, hfinal, makeBytes_length,
    List.take_of_length_le (show (utf8 "hi").length ≤ maxPktLen by decide),
    List.take_of_length_le (show (utf8 "xx\x7b127.0.0.1:9999\x7d").length ≤ maxPktLen by decide)]
  rfl

/-- C7, at a failing input. For every K, after K receives that time out the
datagram `{` makes `getAddrJP` panic: `Serve` has slept K times 5 ms, has
spawned no task for the failed receives, and ends in the (K+1)-th iteration
without dispatching the datagram. -/
theorem Serve_transient_then_open_marker_panics (resolve : Bytes → Option UDPAddr) (K : Nat)
    (sender : UDPAddr) :
    timeoutError.isTransient = true ∧
    Serve resolve ((List.replicate K timeoutError).map .failure ++ [.datagram (utf8 "\x7b") sender])
      = .panicked
          { buf := utf8 "\x7b" ++ makeBytes 1499, reads := K + 1,
            trace := List.replicate K (.sleep 5) } := by
  refine ⟨rfl, ?_⟩
  have hb : received (makeBytes maxPktLen) (utf8 "\x7b") = utf8 "\x7b" ++ makeBytes 1499 :=
    received_init (by decide)
  have hg : getAddrJP resolve (utf8 "\x7b" ++ makeBytes 1499) = none := by
    apply getAddrJP_open_only resolve (List.mem_append_left _ (by decide))
    rw [List.mem_append, not_or]
    exact ⟨by decide, closeMarker_not_mem_makeBytes _⟩
  unfold Serve
  rw [ServeLoop_transient_failures (List.replicate K timeoutError)
    (by intro err h; rw [List.eq_of_mem_replicate h]; rfl) ServeState.init
    (by rw [ServeState.init, getAddrJP_makeBytes]; simp)]
  rw [ServeLoop_datagram_panic resolve _ (utf8 "\x7b") sender [] (by simp only [ServeState.init, hb]; exact hg)]
  simp [ServeState.init, hb]

/-! ## Copy before dispatch -/

/-- The bytes given to the task of an iteration that receives a datagram
into the 1500-byte buffer and goes on: they are the first `nr` bytes of the
buffer as it stands after the receive, `nr` of them, and they are the
payload cut to 1500 bytes. -/
theorem ServeLoop_task_bytes (resolve : Bytes → Option UDPAddr) (st st' : ServeState)
    (payload : Bytes) (sender : UDPAddr) (hlen : st.buf.length = maxPktLen)
    (h : ServeLoop resolve st [.datagram payload sender] = .blocked st') :
    ∃ addr, st'.trace
        = st.trace ++ [.spawn (st'.buf.take (min payload.length maxPktLen)) addr] ∧
      (st'.buf.take (min payload.length maxPktLen)).length = min payload.length maxPktLen ∧
      st'.buf.take (min payload.length maxPktLen) = payload.take maxPktLen := by
  obtain ⟨-, -, -, hcase⟩ := ServeLoop_single_blocked h
  rcases hcase with ⟨payload', sender', addr, hr, -, hbuf, htrace⟩ | ⟨err, hr, -⟩
  · cases hr
    have ht : st'.buf.take (min payload.length maxPktLen) = payload.take maxPktLen := by
      rw [hbuf, ← hlen, received_take]
    refine ⟨addr, ?_, ?_, ht⟩
    · rw [ht, htrace, hlen]
    · rw [ht, List.length_take, Nat.min_comm]
  · cases hr

/-- The bytes of the tasks of a run of `Serve` that is waiting for its next
receive: in order, the payloads of the datagrams received, each cut to 1500
bytes. In a run that ended they are an initial segment of these. -/
theorem Serve_task_bytes (resolve : Bytes → Option UDPAddr) (script : List RecvResult) :
    (∀ st : ServeState, Serve resolve script = .blocked st →
      (spawned st.trace).map Prod.fst = (payloads script).map (List.take maxPktLen)) ∧
    (spawned (Serve resolve script).state.trace).map Prod.fst
      <+: (payloads script).map (List.take maxPktLen) := by
  obtain ⟨t, ht, hp, hb⟩ := @ServeLoop_trace resolve script ServeState.init
  refine ⟨?_, ?_⟩
  · intro st h
    have hb' := hb st h
    unfold Serve at h
    rw [h] at ht
    simp only [ServeResult.state, ServeState.init, List.nil_append, makeBytes_length] at ht hb'
    rw [ht, hb']
  · unfold Serve
    simp only [ServeState.init, List.nil_append, makeBytes_length] at ht hp
    rw [ServeState.init, ht]
    exact hp

/-- C8, at a failing input. Two datagrams, `hello` and then the single byte
`{`. Both receives succeed (5 bytes, then 1 byte), but in the second
iteration `getAddrJP` panics on the buffer `{ello` followed by zero bytes,
before the copy of lines 110-111: the run ends with two receives made and
one task, that of `hello`. No byte sequence is handed to a task for the
second datagram, so the bytes of the tasks are not the payloads of the
datagrams received. -/
theorem Serve_received_datagram_without_task (resolve : Bytes → Option UDPAddr)
    (senderOfFirst senderOfSecond : UDPAddr) :
    Serve resolve [.datagram (utf8 "hello") senderOfFirst, .datagram (utf8 "\x7b") senderOfSecond]
      = .panicked
          { buf := utf8 "\x7bello" ++ makeBytes 1495, reads := 2,
            trace := [.spawn (utf8 "hello") (some senderOfFirst)] } ∧
    (payloads [.datagram (utf8 "hello") senderOfFirst,
        .datagram (utf8 "\x7b") senderOfSecond]).map (List.take maxPktLen)
      = [utf8 "hello", utf8 "\x7b"] ∧
    (spawned [.spawn (utf8 "hello") (some senderOfFirst)]).map Prod.fst = [utf8 "hello"] ∧
    (spawned [.spawn (utf8 "hello") (some senderOfFirst)]).map Prod.fst
      ≠ (payloads [.datagram (utf8 "hello") senderOfFirst,
          .datagram (utf8 "\x7b") senderOfSecond]).map (List.take maxPktLen) := by
  have hpay : (payloads [.datagram (utf8 "hello") senderOfFirst,
        .datagram (utf8 "\x7b") senderOfSecond]).map (List.take maxPktLen)
      = [utf8 "hello", utf8 "\x7b"] := by
    simp only [payloads, List.map_cons, List.map_nil,
      List.take_of_length_le (show (utf8 "hello").length ≤ maxPktLen by decide),
      List.take_of_length_le (show (utf8 "\x7b").length ≤ maxPktLen by decide)]
  have hsp : (spawned [.spawn (utf8 "hello") (some senderOfFirst)]).map Prod.fst
      = [utf8 "hello"] := rfl
  refine ⟨?_, hpay, hsp, ?_⟩
  · have hb₁ : received (makeBytes maxPktLen) (utf8 "hello")
        = utf8 "h" ++ (utf8 "ello" ++ makeBytes 1495) := by
      rw [@received_init _ 1495 (by decide)]
      rw [show utf8 "hello" = utf8 "h" ++ utf8 "ello" by decide]
      simp
    have hl₁ : (utf8 "h" ++ (utf8 "ello" ++ makeBytes 1495)).length = maxPktLen := by
      rw [← hb₁, received_length, makeBytes_length]
    have hb₂ : received (utf8 "h" ++ (utf8 "ello" ++ makeBytes 1495)) (utf8 "\x7b")
        = utf8 "\x7bello" ++ makeBytes 1495 := by
      rw [received_of_le (by rw [hl₁]; decide)]
      rw [show (utf8 "\x7b").length = (utf8 "h").length by decide, List.drop_left]
      rw [show utf8 "\x7bello" = utf8 "\x7b" ++ utf8 "ello" by decide]
      simp
    have hg : getAddrJP resolve (utf8 "\x7bello" ++ makeBytes 1495) = none := by
      apply getAddrJP_open_only resolve (List.mem_append_left _ (by decide))
      rw [List.mem_append, not_or]
      exact ⟨by decide, closeMarker_not_mem_makeBytes _⟩
    unfold Serve
    rw [ServeLoop_datagram_plain resolve ServeState.init (utf8 "hello") senderOfFirst _
      (by decide) (by decide) (openMarker_not_mem_makeBytes _) (closeMarker_not_mem_makeBytes _)]
    simp only [ServeState.init, hb₁]
    rw [ServeLoop_datagram_panic resolve
      { buf := utf8 "h" ++ (utf8 "ello" ++ makeBytes 1495), reads := 0 + 1,
        trace := [] ++ [.spawn ((utf8 "hello").take (makeBytes maxPktLen).length)
          (some senderOfFirst)] }
      (utf8 "\x7b") senderOfSecond [] (by simp only [hb₂]; exact hg)]
    simp only [hb₂, makeBytes_length, List.nil_append,
      List.take_of_length_le (show (utf8 "hello").length ≤ maxPktLen by decide)]
  · rw [hpay, hsp]
    decide

/-! ## `Transmit` and `handlePacket` -/

/-- C9. `Transmit` returns the error of the encoder and sends nothing when
encoding `m` fails. Otherwise it makes exactly one send, of exactly the
encoded bytes: `Write` when `a` is nil, `WriteTo` to `a` when it is not; and
it returns exactly what that send returned (nil when the send succeeded). -/
theorem Transmit_sends_once_or_fails {Message : Type} (codec : Codec Message) (l : UDPConn)
    (a : Option UDPAddr) (m : Message) :
    (∀ err, codec.MarshalBinary m = .error err → Transmit codec l a m = ([], some err)) ∧
    (∀ d, codec.MarshalBinary m = .ok d → a = none →
      Transmit codec l a m = ([.Write d], l.Write d)) ∧
    (∀ d addr, codec.MarshalBinary m = .ok d → a = some addr →
      Transmit codec l a m = ([.WriteTo d addr], l.WriteTo d addr)) := by
  refine ⟨?_, ?_, ?_⟩
  · intro err h
    simp [Transmit, h]
  · intro d h ha
    simp [Transmit, h, ha]
  · intro d addr h ha
    simp [Transmit, h, ha]

/-- Witness of C9: a send to `192.0.2.1:5683` that fails. -/
theorem Transmit_sends_once_or_fails_witness :
    Transmit identityCodec refusingConn (some senderA) (utf8 "hi")
      = ([.WriteTo (utf8 "hi") senderA], some (.plain "sendto: network is unreachable")) :=
  (Transmit_sends_once_or_fails identityCodec refusingConn (some senderA) (utf8 "hi")).2.2
    (utf8 "hi") senderA rfl rfl

/-- Counterexample to C10. A datagram is decoded, the handler returns a
reply and the send of the reply fails: `Transmit` returns an error, yet the
run of `handlePacket` is a handler call, a `Transmit` call and the send,
with no log line, and it is the very run obtained when the send succeeds.
The failure is not reported. -/
theorem handlePacket_transmit_failure_counterexample :
    (Transmit identityCodec refusingConn (some senderA) (utf8 "hi")).2
      = some (.plain "sendto: network is unreachable") ∧
    handlePacket identityCodec refusingConn (utf8 "hi") (some senderA) echoHandler
      = [.serveCOAP (some senderA) (utf8 "hi"), .transmit (some senderA) (utf8 "hi"),
          .socket (.WriteTo (utf8 "hi") senderA)] ∧
    handlePacket identityCodec refusingConn (utf8 "hi") (some senderA) echoHandler
      = handlePacket identityCodec acceptingConn (utf8 "hi") (some senderA) echoHandler := by
  decide

/-- C10, amended. For every `data` and address `u` given to `handlePacket`:
when decoding fails, the run is one log line and nothing else (no handler
call, no send); when decoding succeeds, the handler is called once, with `u`
and the decoded message; when the handler returns nil nothing more happens;
when it returns a message `rv`, `Transmit` is called once, with `u` and
`rv`, and the run ends with the sends of that call. The error that
`Transmit` returns does not enter the run: it is neither logged nor
returned, and it stops nothing. -/
theorem handlePacket_runs {Message : Type} (codec : Codec Message) (l : UDPConn)
    (data : Bytes) (u : Option UDPAddr) (rh : Handler Message) :
    (∀ err, codec.parseMessage data = .error err →
      handlePacket codec l data u rh = [.logPrintf ("Error parsing " ++ err.text)]) ∧
    (∀ msg, codec.parseMessage data = .ok msg → rh l u msg = none →
      handlePacket codec l data u rh = [.serveCOAP u msg]) ∧
    (∀ msg rv, codec.parseMessage data = .ok msg → rh l u msg = some rv →
      handlePacket codec l data u rh
        = [.serveCOAP u msg, .transmit u rv] ++ (Transmit codec l u rv).1.map .socket ∧
      ∀ text, PacketEvent.logPrintf text ∉ handlePacket codec l data u rh) := by
  refine ⟨?_, ?_, ?_⟩
  · intro err h
    simp [handlePacket, h]
  · intro msg h hr
    simp [handlePacket, h, hr]
  · intro msg rv h hr
    have he : handlePacket codec l data u rh
        = [.serveCOAP u msg, .transmit u rv] ++ (Transmit codec l u rv).1.map .socket := by
      simp [handlePacket, h, hr]
    refine ⟨he, ?_⟩
    intro text hm
    rw [he] at hm
    simp at hm

/-- Witness of C10, amended: a decoded datagram whose reply is sent. -/
theorem handlePacket_runs_witness :
    handlePacket identityCodec acceptingConn (utf8 "hi") (some senderA) echoHandler
      = [.serveCOAP (some senderA) (utf8 "hi"), .transmit (some senderA) (utf8 "hi")]
        ++ (Transmit identityCodec acceptingConn (some senderA) (utf8 "hi")).1.map .socket :=
  ((handlePacket_runs identityCodec acceptingConn (utf8 "hi") (some senderA) echoHandler).2.2
    (utf8 "hi") (utf8 "hi") rfl rfl).1

end Coap
